import Mathlib

/-! Verification development for the MultiMAuS per-agent decision model
(simulator/customer_unimaus.py).  Real-valued quantities are modelled over ℚ,
the pseudo-random generator as explicit draw arguments or a stream of draws,
and fallible operations (numpy ValueError / IndexError) as Option. -/

namespace MultiMAuS

/-- A resolved local calendar time, as produced by get_local_datetime:
month in 1..12, day-of-month in 1..31, hour in 0..23, weekday in 0..6. -/
structure LocalDateTime where
  month : ℕ
  day : ℕ
  hour : ℕ
  weekday : ℕ
deriving DecidableEq

/-- The behavioural parameters set up by UniMausCustomer.__init__ : the average
number of transactions per hour and the four temporal curves (month,
day-of-month, weekday, hour), each modelled as a total map from index to
value. -/
structure CurveState where
  avg_trans_per_hour : ℚ
  trans_prob_month : ℕ → ℚ
  trans_prob_monthday : ℕ → ℚ
  trans_prob_weekday : ℕ → ℚ
  trans_prob_hour : ℕ → ℚ

/-- UniMausCustomer.get_curr_transaction_prob : the base hourly rate weighted by
the four temporal curves evaluated at the current local time. -/
def get_curr_transaction_prob (c : CurveState) (t : LocalDateTime) : ℚ :=
  c.avg_trans_per_hour * (12 * c.trans_prob_month (t.month - 1))
    * (24 * c.trans_prob_hour t.hour)
    * (30.5 * c.trans_prob_monthday (t.day - 1))
    * (7 * c.trans_prob_weekday t.weekday)

/-- UniMausCustomer.decide_making_transaction with the uniform draw u made
explicit: transact iff the current transaction probability strictly exceeds
the draw. -/
def decide_making_transaction (c : CurveState) (t : LocalDateTime) (u : ℚ) : Bool :=
  decide (u < get_curr_transaction_prob c t)

/-- Covariance scale passed to the month-curve sampler (noise_level / 1200). -/
def monthCov (noise_level : ℚ) : ℚ := noise_level / 1200

/-- Covariance scale passed to the day-of-month-curve sampler (noise_level / 305). -/
def monthdayCov (noise_level : ℚ) : ℚ := noise_level / 305

/-- Covariance scale passed to the weekday-curve sampler (noise_level / 70). -/
def weekdayCov (noise_level : ℚ) : ℚ := noise_level / 70

/-- Covariance scale passed to the hour-curve sampler (noise_level / 240). -/
def hourCov (noise_level : ℚ) : ℚ := noise_level / 240

/-- Pointwise clamp of negative entries to zero, as in arr[arr < 0] = 0. -/
def clampNeg (v : ℕ → ℚ) : ℕ → ℚ := fun i => if v i < 0 then 0 else v i

/-- UniMausCustomer.initialise_transaction_probabilities.  Here
sampler mean cov stands for random_state.multivariate_normal(mean, eye * cov):
an arbitrary draw from the multivariate normal with the given mean vector and
isotropic covariance scale.  Each drawn curve has its negative entries clamped
to zero. -/
def initialise_transaction_probabilities
    (sampler : (ℕ → ℚ) → ℚ → (ℕ → ℚ)) (noise_level : ℚ)
    (frac_month frac_monthday frac_weekday frac_hour : ℕ → ℚ) :
    (ℕ → ℚ) × (ℕ → ℚ) × (ℕ → ℚ) × (ℕ → ℚ) :=
  ( clampNeg (sampler frac_month (monthCov noise_level))
  , clampNeg (sampler frac_monthday (monthdayCov noise_level))
  , clampNeg (sampler frac_weekday (weekdayCov noise_level))
  , clampNeg (sampler frac_hour (hourCov noise_level)) )

/-- Source lines 22-26: the yearly transaction count with the Gaussian noise
addition a, which is kept only when the perturbed value is strictly positive. -/
def perturbed_trans_per_year (b a : ℚ) : ℚ := if 0 < b + a then b + a else b

/-- Modelled on the claim wording for comparison: the noise addition kept
whenever the perturbed value would not be negative. -/
def claimed_perturbed_trans_per_year (b a : ℚ) : ℚ := if 0 ≤ b + a then b + a else b

/-- Source lines 26-27: the perturbed yearly rate divided by 366 and by 24,
then scaled by the transaction-motivation factor. -/
def avg_trans_per_hour_init (b a motivation : ℚ) : ℚ :=
  perturbed_trans_per_year b a / 366 / 24 * motivation

/-- The mutable state of a genuine customer that
UniMausGenuineCustomer.decide_making_transaction reads and writes. -/
structure GenuineState where
  curve : CurveState
  stay : Bool
  card_corrupted : Bool

/-- UniMausCustomer.decide_making_transaction with the RNG modelled as a stream
of uniform draws; it consumes exactly one draw (none if the stream is
exhausted, which the real generator never is). -/
def decide_making_transaction_rng (c : CurveState) (t : LocalDateTime) :
    List ℚ → Option (Bool × List ℚ)
  | [] => none
  | u :: rest => some (decide_making_transaction c t u, rest)

/-- UniMausGenuineCustomer.decide_making_transaction : the base decision, then
an unconditional uniform draw deciding leave_after_fraud; when the base
decision is true, the card is corrupted and the leave draw succeeds, the
transaction is cancelled and stay is cleared. -/
def decide_making_transaction_genuine (g : GenuineState) (t : LocalDateTime)
    (stay_after_fraud : ℚ) (rng : List ℚ) : Option (Bool × GenuineState × List ℚ) :=
  match decide_making_transaction_rng g.curve t rng with
  | none => none
  | some (do_trans, rng1) =>
    match rng1 with
    | [] => none
    | u :: rng2 =>
      let leave_after_fraud := decide (u < 1 - stay_after_fraud)
      if do_trans && g.card_corrupted && leave_after_fraud then
        some (false, { g with stay := false }, rng2)
      else
        some (do_trans, g, rng2)

/-- The genuine decision as the claim words it, for comparison with the code:
the leave_after_fraud draw is taken only when the base decision is true and
the card is corrupted. -/
def decide_making_transaction_genuine_claimed (g : GenuineState) (t : LocalDateTime)
    (stay_after_fraud : ℚ) (rng : List ℚ) : Option (Bool × GenuineState × List ℚ) :=
  match decide_making_transaction_rng g.curve t rng with
  | none => none
  | some (do_trans, rng1) =>
    if do_trans && g.card_corrupted then
      match rng1 with
      | [] => none
      | u :: rng2 =>
        if decide (u < 1 - stay_after_fraud) then
          some (false, { g with stay := false }, rng2)
        else
          some (do_trans, g, rng2)
    else
      some (do_trans, g, rng1)

/-- Modelled from the spec: an entry of the model.customers registry (the
transaction model itself is an external collaborator, not part of this source
file); section 6 of the spec describes customers as an iterable of all agents,
genuine and fraudulent alike, used for fraud targeting and active-id
computation.  Each entry carries exactly the fields the card-sourcing code
reads. -/
structure Agent where
  unique_id : ℕ
  card_id : ℕ
  country : ℕ
  currency : ℕ
  num_transactions : ℕ
  fraudster : Bool
deriving DecidableEq

/-- The country and currency a fraudulent customer drew during its own
initialisation, which card-sourcing may overwrite. -/
structure FraudsterLocale where
  country : ℕ
  currency : ℕ
deriving DecidableEq

/-- Source line 171: the unique ids of the customers that have made at least
one transaction. -/
def customers_active_ids (customers : List Agent) : List ℕ :=
  (customers.filter fun c => decide (0 < c.num_transactions)).map fun c => c.unique_id

/-- Source line 174, the list comprehension: customers from a fraudster country
with a fraudster currency whose id is among the active ids. -/
def fraud_victim_candidates (customers : List Agent)
    (fraudster_countries fraudster_currencies : List ℕ) : List Agent :=
  customers.filter fun c =>
    fraudster_countries.contains c.country
      && fraudster_currencies.contains c.currency
      && (customers_active_ids customers).contains c.unique_id

/-- random_state.choice over a list: raises ValueError on an empty list
(modelled as none), otherwise returns the element at the drawn index. -/
def rng_choice {α : Type} (l : List α) (pick : ℕ) : Option α :=
  l.get? (pick % l.length)

/-- UniMausFraudulentCustomer.initialise_card_id : with probability
fraud_cards_in_genuine (uniform draw u) try to adopt a victim's card id,
country and currency; when the candidate set is empty the ValueError is caught
and the base-class card id is used with the drawn locale kept; the
complementary branch uses the base-class card id directly.  Returns the card
id together with the resulting locale. -/
def initialise_card_id_fraudulent (locale : FraudsterLocale) (customers : List Agent)
    (fraudster_countries fraudster_currencies : List ℕ)
    (fraud_cards_in_genuine : ℚ) (next_card_id : ℕ) (u : ℚ) (pick : ℕ) :
    ℕ × FraudsterLocale :=
  if u < fraud_cards_in_genuine then
    match rng_choice (fraud_victim_candidates customers fraudster_countries fraudster_currencies) pick with
    | some customer => (customer.card_id, ⟨customer.country, customer.currency⟩)
    | none => (next_card_id, locale)
  else
    (next_card_id, locale)

/-- A merchant of the model's registry, identified by its unique id; its
get_amount behaviour is an external collaborator passed separately. -/
structure Merchant where
  unique_id : ℕ
deriving DecidableEq

/-- np.random.choice(values, p=probs) : walk the cumulative distribution and
return the first value whose cumulative probability strictly exceeds the
uniform draw. -/
def weighted_choice : List (ℕ × ℚ) → ℚ → Option ℕ
  | [], _ => none
  | (v, p) :: rest, u => if u < p then some v else weighted_choice rest (u - p)

/-- UniMausCustomer.pick_curr_merchant : sample a merchant id from the
currency-conditioned distribution, then resolve it against the registry by
identity match; the [0] lookup on an empty match list raises IndexError,
modelled as none. -/
def pick_curr_merchant (merchant_prob : List (ℕ × ℚ)) (merchants : List Merchant)
    (u : ℚ) : Option Merchant :=
  match weighted_choice merchant_prob u with
  | none => none
  | some mID => (merchants.filter fun m => m.unique_id == mID).head?

/-- The full per-agent field set that UniMausCustomer.perform_transaction can
see, to state its frame. -/
structure CustomerFields where
  num_transactions : ℕ
  stay : Bool
  card_corrupted : Bool
  card_id : ℕ
  country : ℕ
  currency : ℕ
  curr_merchant : Option Merchant
  curr_amount : ℚ
deriving DecidableEq

/-- UniMausCustomer.pick_curr_amount : delegate to the current merchant's
get_amount, passing the customer itself; fails when no merchant is set. -/
def pick_curr_amount (get_amount : Merchant → CustomerFields → ℚ)
    (s : CustomerFields) : Option ℚ :=
  s.curr_merchant.map fun m => get_amount m s

/-- UniMausCustomer.perform_transaction : pick a merchant, store it in
curr_merchant, then store in curr_amount the amount computed by that merchant
on the updated state; none when the merchant lookup fails. -/
def perform_transaction (get_amount : Merchant → CustomerFields → ℚ)
    (merchant_prob : List (ℕ × ℚ)) (merchants : List Merchant) (u : ℚ)
    (s : CustomerFields) : Option CustomerFields :=
  match pick_curr_merchant merchant_prob merchants u with
  | none => none
  | some m =>
    let s1 := { s with curr_merchant := some m }
    match pick_curr_amount get_amount s1 with
    | none => none
    | some a => some { s1 with curr_amount := a }

/-- Every entry of a clamped curve is non-negative, whatever was drawn. -/
theorem clampNeg_nonneg (v : ℕ → ℚ) (i : ℕ) : 0 ≤ clampNeg v i := by
  unfold clampNeg
  by_cases h : v i < 0
  · simp [h]
  · simp [h, le_of_not_lt h]

/-- C1: get_curr_transaction_prob returns exactly avg_trans_per_hour ×
12·month_curve[mo-1] × 24·hour_curve[ho] × 30.5·day_curve[da-1] ×
7·weekday_curve[wd]; and with noise_level = 0 (a sampler that is degenerate at
covariance zero returns the mean, so the curves equal the class mean curves,
assumed non-negative) the probability at local time month 1, day 1, weekday 0,
hour 0 equals avg_trans_per_hour × 12·month_curve[0] × 24·hour_curve[0] ×
30.5·day_curve[0] × 7·weekday_curve[0] with no deviation. -/
theorem get_curr_transaction_prob_spec :
    (∀ (c : CurveState) (t : LocalDateTime),
      get_curr_transaction_prob c t =
        c.avg_trans_per_hour * (12 * c.trans_prob_month (t.month - 1))
          * (24 * c.trans_prob_hour t.hour)
          * (30.5 * c.trans_prob_monthday (t.day - 1))
          * (7 * c.trans_prob_weekday t.weekday)) ∧
    (∀ (sampler : (ℕ → ℚ) → ℚ → (ℕ → ℚ)) (fm fmd fw fh : ℕ → ℚ) (avg : ℚ),
      (∀ mean : ℕ → ℚ, sampler mean 0 = mean) →
      (∀ i, 0 ≤ fm i) → (∀ i, 0 ≤ fmd i) → (∀ i, 0 ≤ fw i) → (∀ i, 0 ≤ fh i) →
      ∀ pm pmd pw ph,
        initialise_transaction_probabilities sampler 0 fm fmd fw fh = (pm, pmd, pw, ph) →
        get_curr_transaction_prob ⟨avg, pm, pmd, pw, ph⟩ ⟨1, 1, 0, 0⟩ =
          avg * (12 * fm 0) * (24 * fh 0) * (30.5 * fmd 0) * (7 * fw 0)) := by
  constructor
  · intro c t
    rfl
  · intro sampler fm fmd fw fh avg hs hfm hfmd hfw hfh pm pmd pw ph h
    have cl : ∀ v : ℕ → ℚ, (∀ i, 0 ≤ v i) → clampNeg v = v := by
      intro v hv
      funext i
      exact if_neg (not_lt.mpr (hv i))
    have e : initialise_transaction_probabilities sampler 0 fm fmd fw fh
        = (fm, fmd, fw, fh) := by
      unfold initialise_transaction_probabilities
      have cm : monthCov 0 = 0 := zero_div _
      have cmd : monthdayCov 0 = 0 := zero_div _
      have cw : weekdayCov 0 = 0 := zero_div _
      have ch : hourCov 0 = 0 := zero_div _
      rw [cm, cmd, cw, ch, hs, hs, hs, hs, cl fm hfm, cl fmd hfmd, cl fw hfw, cl fh hfh]
    rw [e] at h
    simp only [Prod.mk.injEq] at h
    obtain ⟨h1, h2, h3, h4⟩ := h
    subst h1 h2 h3 h4
    rfl

/-- Witness for get_curr_transaction_prob_spec: the degenerate sampler on
constant-one mean curves at local time (1, 1, 0, 0). -/
theorem get_curr_transaction_prob_spec_witness :
    get_curr_transaction_prob
        ⟨1, clampNeg (fun _ => 1), clampNeg (fun _ => 1), clampNeg (fun _ => 1),
          clampNeg (fun _ => 1)⟩ ⟨1, 1, 0, 0⟩
      = 1 * (12 * 1) * (24 * 1) * (30.5 * 1) * (7 * 1) :=
  get_curr_transaction_prob_spec.2 (fun mean _ => mean)
    (fun _ => 1) (fun _ => 1) (fun _ => 1) (fun _ => 1) 1
    (fun _ => rfl) (fun _ => by norm_num) (fun _ => by norm_num)
    (fun _ => by norm_num) (fun _ => by norm_num)
    _ _ _ _ rfl

/-- C2: after initialisation every entry of each of the four temporal curves
(12, 31, 7 and 24 entries) is non-negative, for every noise level and every
possible sequence of draws; and when the class's table yearly rate and the
transaction-motivation factor are non-negative, avg_trans_per_hour is
non-negative. -/
theorem initialisation_nonneg :
    (∀ (sampler : (ℕ → ℚ) → ℚ → (ℕ → ℚ)) (nl : ℚ) (fm fmd fw fh : ℕ → ℚ),
      (∀ i, i < 12 →
        0 ≤ (initialise_transaction_probabilities sampler nl fm fmd fw fh).1 i) ∧
      (∀ i, i < 31 →
        0 ≤ (initialise_transaction_probabilities sampler nl fm fmd fw fh).2.1 i) ∧
      (∀ i, i < 7 →
        0 ≤ (initialise_transaction_probabilities sampler nl fm fmd fw fh).2.2.1 i) ∧
      (∀ i, i < 24 →
        0 ≤ (initialise_transaction_probabilities sampler nl fm fmd fw fh).2.2.2 i)) ∧
    (∀ b a m : ℚ, 0 ≤ b → 0 ≤ m → 0 ≤ avg_trans_per_hour_init b a m) := by
  constructor
  · intro sampler nl fm fmd fw fh
    exact ⟨fun i _ => clampNeg_nonneg _ i, fun i _ => clampNeg_nonneg _ i,
      fun i _ => clampNeg_nonneg _ i, fun i _ => clampNeg_nonneg _ i⟩
  · intro b a m hb hm
    have h1 : 0 ≤ perturbed_trans_per_year b a := by
      unfold perturbed_trans_per_year
      by_cases h : 0 < b + a
      · rw [if_pos h]
        exact le_of_lt h
      · rw [if_neg h]
        exact hb
    unfold avg_trans_per_hour_init
    have h2 : (0:ℚ) ≤ 366 := by norm_num
    have h3 : (0:ℚ) ≤ 24 := by norm_num
    exact mul_nonneg (div_nonneg (div_nonneg h1 h2) h3) hm

/-- Witness for initialisation_nonneg: a sampler that always returns -1 on
constant-zero means, entry 0 of the month curve, and a rate draw that would be
negative. -/
theorem initialisation_nonneg_witness :
    0 ≤ (initialise_transaction_probabilities (fun _ _ => fun _ => -1) 1
          (fun _ => 0) (fun _ => 0) (fun _ => 0) (fun _ => 0)).1 0 ∧
    0 ≤ avg_trans_per_hour_init 1 (-5) 2 :=
  ⟨(initialisation_nonneg.1 (fun _ _ => fun _ => -1) 1
      (fun _ => 0) (fun _ => 0) (fun _ => 0) (fun _ => 0)).1 0 (by norm_num),
   initialisation_nonneg.2 1 (-5) 2 (by norm_num) (by norm_num)⟩

/-- C3 counterexample: at noise_level = 1 the day-of-month sampler receives
the covariance scale 1/305, not 1/(100·31) = 1/3100 as the claim states. -/
theorem monthdayCov_cex : monthdayCov 1 ≠ 1 / (100 * 31) := by
  unfold monthdayCov
  norm_num

/-- C3 amended: initialisation passes isotropic covariance noise_level/(100×12)
to the month-curve sampler, but noise_level/(10×30.5) for day-of-month,
noise_level/(10×7) for weekday and noise_level/(10×24) for hour — not
noise_level/(100×dimension_size) for those three — before negative entries
are clamped to zero. -/
theorem covariance_scales : ∀ nl : ℚ,
    monthCov nl = nl / (100 * 12) ∧ monthdayCov nl = nl / (10 * 30.5) ∧
    weekdayCov nl = nl / (10 * 7) ∧ hourCov nl = nl / (10 * 24) := by
  intro nl
  unfold monthCov monthdayCov weekdayCov hourCov
  norm_num

/-- C5: the base decision is true iff the computed transaction probability
strictly exceeds the freshly drawn uniform; in particular, when all four
curve entries at the current local time are zero the decision is false for
every draw u ≥ 0. -/
theorem decide_making_transaction_spec :
    (∀ c t u, (decide_making_transaction c t u = true ↔ get_curr_transaction_prob c t > u)) ∧
    (∀ c t u, 0 ≤ u →
      c.trans_prob_month (t.month - 1) = 0 →
      c.trans_prob_hour t.hour = 0 →
      c.trans_prob_monthday (t.day - 1) = 0 →
      c.trans_prob_weekday t.weekday = 0 →
      decide_making_transaction c t u = false) := by
  constructor
  · intro c t u
    simp [decide_making_transaction, gt_iff_lt]
  · intro c t u hu hm hh hd hw
    have hp : get_curr_transaction_prob c t = 0 := by
      unfold get_curr_transaction_prob
      rw [hm]
      ring
    have hn : ¬ u < get_curr_transaction_prob c t := by
      rw [hp]
      exact not_lt.mpr hu
    unfold decide_making_transaction
    exact decide_eq_false hn

/-- Witness for decide_making_transaction_spec: all-zero curves at local time
(1, 1, 0, 0) and draw 0. -/
theorem decide_making_transaction_spec_witness :
    decide_making_transaction ⟨5, fun _ => 0, fun _ => 0, fun _ => 0, fun _ => 0⟩
      ⟨1, 1, 0, 0⟩ 0 = false :=
  decide_making_transaction_spec.2 _ _ _ le_rfl rfl rfl rfl rfl

/-- C8 counterexample: with base rate 1 and noise -1 the perturbed value 0 is
not negative, so the claim keeps the noise addition (rate 0), yet the code
requires strict positivity and keeps the unperturbed rate 1. -/
theorem perturbed_trans_per_year_cex :
    perturbed_trans_per_year 1 (-1) = 1 ∧
    claimed_perturbed_trans_per_year 1 (-1) = 0 ∧
    perturbed_trans_per_year 1 (-1) ≠ claimed_perturbed_trans_per_year 1 (-1) := by
  refine ⟨?_, ?_, ?_⟩ <;>
    norm_num [perturbed_trans_per_year, claimed_perturbed_trans_per_year]

/-- C8 amended: the perturbed yearly rate equals b + a exactly when b + a is
strictly positive and equals b otherwise (the noise addition is rejected when
it would drive the rate to zero or below); the resulting rate is divided by
366 and by 24 and scaled by the motivation factor to give avg_trans_per_hour. -/
theorem perturbed_rate_spec : ∀ b a m : ℚ,
    (0 < b + a → perturbed_trans_per_year b a = b + a) ∧
    (b + a ≤ 0 → perturbed_trans_per_year b a = b) ∧
    avg_trans_per_hour_init b a m = perturbed_trans_per_year b a / 366 / 24 * m := by
  intro b a m
  exact ⟨fun h => if_pos h, fun h => if_neg (not_lt.mpr h), rfl⟩

/-- Witness for perturbed_rate_spec at rates 2 + 1 and 1 + (-2). -/
theorem perturbed_rate_spec_witness :
    perturbed_trans_per_year 2 1 = 3 ∧ perturbed_trans_per_year 1 (-2) = 1 ∧
    avg_trans_per_hour_init 2 1 3 = perturbed_trans_per_year 2 1 / 366 / 24 * 3 := by
  refine ⟨?_, (perturbed_rate_spec 1 (-2) 3).2.1 (by norm_num),
    (perturbed_rate_spec 2 1 3).2.2⟩
  have h := (perturbed_rate_spec 2 1 3).1 (by norm_num)
  rw [h]
  norm_num

/-- A genuine customer with all-zero curves and an uncorrupted card. -/
def gZero : GenuineState :=
  ⟨⟨0, fun _ => 0, fun _ => 0, fun _ => 0, fun _ => 0⟩, true, false⟩

/-- C4 counterexample: with an uncorrupted card (so no cancellation can occur)
the code still consumes the leave_after_fraud draw — both draws of the stream
are gone — while the claim's conditional draw would leave the second draw
unread. -/
theorem genuine_decide_draw_cex :
    (decide_making_transaction_genuine gZero ⟨1, 1, 0, 0⟩ 0 [0, 0]).map
        (fun r => r.2.2) = some [] ∧
    (decide_making_transaction_genuine_claimed gZero ⟨1, 1, 0, 0⟩ 0 [0, 0]).map
        (fun r => r.2.2) = some [0] ∧
    (decide_making_transaction_genuine gZero ⟨1, 1, 0, 0⟩ 0 [0, 0]).map
        (fun r => r.2.2) ≠
      (decide_making_transaction_genuine_claimed gZero ⟨1, 1, 0, 0⟩ 0 [0, 0]).map
        (fun r => r.2.2) := by
  have hdo : decide_making_transaction gZero.curve ⟨1, 1, 0, 0⟩ 0 = false := by
    simp only [decide_making_transaction, gZero, get_curr_transaction_prob,
      decide_eq_false_iff_not]
    norm_num
  have h1 : decide_making_transaction_genuine gZero ⟨1, 1, 0, 0⟩ 0 [0, 0] =
      (if decide_making_transaction gZero.curve ⟨1, 1, 0, 0⟩ 0 && gZero.card_corrupted
          && decide ((0:ℚ) < 1 - 0) then
        some (false, { gZero with stay := false }, ([] : List ℚ))
      else
        some (decide_making_transaction gZero.curve ⟨1, 1, 0, 0⟩ 0, gZero,
          ([] : List ℚ))) := rfl
  have h2 : decide_making_transaction_genuine_claimed gZero ⟨1, 1, 0, 0⟩ 0 [0, 0] =
      (if decide_making_transaction gZero.curve ⟨1, 1, 0, 0⟩ 0 && gZero.card_corrupted then
        (if decide ((0:ℚ) < 1 - 0) then
          some (false, { gZero with stay := false }, ([] : List ℚ))
        else
          some (decide_making_transaction gZero.curve ⟨1, 1, 0, 0⟩ 0, gZero,
            ([] : List ℚ)))
      else
        some (decide_making_transaction gZero.curve ⟨1, 1, 0, 0⟩ 0, gZero,
          ([0] : List ℚ))) := rfl
  rw [hdo] at h1 h2
  simp at h1 h2
  rw [h1, h2]
  simp

/-- C4 amended: the leave_after_fraud uniform is drawn unconditionally after
the base decision; exactly when the base decision is true, the card is
corrupted and the Bernoulli with success probability 1 - stay_after_fraud
succeeds, the transaction is cancelled and stay is cleared; in particular
with a corrupted card, a true base decision and stay_after_fraud = 0,
every call cancels the transaction and sets stay to false. -/
theorem genuine_decide_spec : ∀ (g : GenuineState) (t : LocalDateTime)
    (sf u1 u2 : ℚ) (rest : List ℚ),
    (decide_making_transaction_genuine g t sf (u1 :: u2 :: rest) =
      if decide_making_transaction g.curve t u1 && g.card_corrupted
          && decide (u2 < 1 - sf) then
        some (false, { g with stay := false }, rest)
      else
        some (decide_making_transaction g.curve t u1, g, rest)) ∧
    (g.card_corrupted = true → decide_making_transaction g.curve t u1 = true →
      sf = 0 → u2 < 1 →
      decide_making_transaction_genuine g t sf (u1 :: u2 :: rest) =
        some (false, { g with stay := false }, rest)) := by
  intro g t sf u1 u2 rest
  have hmain : decide_making_transaction_genuine g t sf (u1 :: u2 :: rest) =
      if decide_making_transaction g.curve t u1 && g.card_corrupted
          && decide (u2 < 1 - sf) then
        some (false, { g with stay := false }, rest)
      else
        some (decide_making_transaction g.curve t u1, g, rest) := rfl
  refine ⟨hmain, fun hc hd hsf hu => ?_⟩
  rw [hmain, hd, hc, hsf]
  have hb : decide (u2 < 1 - (0:ℚ)) = true := by
    rw [sub_zero]
    exact decide_eq_true hu
  rw [hb]
  rfl

/-- A genuine customer with constant-one curves and a corrupted card. -/
def gCorrupted : GenuineState :=
  ⟨⟨1, fun _ => 1, fun _ => 1, fun _ => 1, fun _ => 1⟩, true, true⟩

/-- Witness for genuine_decide_spec: corrupted card, certain base decision and
stay_after_fraud = 0. -/
theorem genuine_decide_spec_witness :
    decide_making_transaction_genuine gCorrupted ⟨1, 1, 0, 0⟩ 0 [0, 0] =
      some (false, { gCorrupted with stay := false }, []) :=
  (genuine_decide_spec gCorrupted ⟨1, 1, 0, 0⟩ 0 0 0 []).2 rfl
    (by
      simp only [decide_making_transaction, gCorrupted, get_curr_transaction_prob,
        decide_eq_true_eq]
      norm_num)
    rfl (by norm_num)

/-- C6: whenever the candidate-victim set is empty, the fraudulent
initialise_card_id never propagates the ValueError to the caller: for every
branch draw and every pick it returns the base-class fallback card id and
leaves the previously drawn country and currency unchanged. -/
theorem initialise_card_id_fraudulent_fallback :
    ∀ (locale : FraudsterLocale) (customers : List Agent) (cos curs : List ℕ)
      (p : ℚ) (next : ℕ) (u : ℚ) (pick : ℕ),
      fraud_victim_candidates customers cos curs = [] →
      initialise_card_id_fraudulent locale customers cos curs p next u pick =
        (next, locale) := by
  intro locale customers cos curs p next u pick h
  unfold initialise_card_id_fraudulent
  rw [h]
  simp [rng_choice]

/-- Witness for initialise_card_id_fraudulent_fallback: a population whose
only customer matches country and currency but has no transaction yet. -/
theorem initialise_card_id_fraudulent_fallback_witness :
    initialise_card_id_fraudulent ⟨3, 4⟩ [⟨0, 7, 1, 2, 0, false⟩] [1] [2] 1 9 0 0 =
      (9, ⟨3, 4⟩) :=
  initialise_card_id_fraudulent_fallback ⟨3, 4⟩ [⟨0, 7, 1, 2, 0, false⟩] [1] [2]
    1 9 0 0 (by decide)

/-- C9 counterexample (customers registry modelled from the spec as holding
all agents): an active fraudulent agent matching the fraud country and
currency constraints is selected as the victim and its card 7 is adopted, so
the victim is not genuine. -/
theorem fraud_victim_cex :
    rng_choice (fraud_victim_candidates [⟨0, 7, 1, 2, 1, true⟩] [1] [2]) 0 =
      some ⟨0, 7, 1, 2, 1, true⟩ ∧
    (⟨0, 7, 1, 2, 1, true⟩ : Agent).fraudster = true ∧
    initialise_card_id_fraudulent ⟨5, 6⟩ [⟨0, 7, 1, 2, 1, true⟩] [1] [2] 1 99 0 0 =
      (7, ⟨1, 2⟩) := by
  refine ⟨?_, rfl, ?_⟩ <;> decide

/-- C9 amended: a successfully selected victim belongs to the customers
registry, matches the fraud country and currency constraints and appears
among the active ids; it is genuine provided every agent in the registry is
genuine (the registry described by the spec holds all agents, so a fraudulent
one can be selected). -/
theorem fraud_victim_constraints :
    ∀ (customers : List Agent) (cos curs : List ℕ) (pick : ℕ) (v : Agent),
      rng_choice (fraud_victim_candidates customers cos curs) pick = some v →
      v ∈ customers ∧ cos.contains v.country = true ∧
        curs.contains v.currency = true ∧
        (customers_active_ids customers).contains v.unique_id = true ∧
        ((∀ c ∈ customers, c.fraudster = false) → v.fraudster = false) := by
  intro customers cos curs pick v h
  have hv : v ∈ fraud_victim_candidates customers cos curs := by
    unfold rng_choice at h
    exact List.get?_mem h
  unfold fraud_victim_candidates at hv
  rw [List.mem_filter] at hv
  obtain ⟨hmem, hp⟩ := hv
  simp only [Bool.and_eq_true] at hp
  obtain ⟨⟨h1, h2⟩, h3⟩ := hp
  exact ⟨hmem, h1, h2, h3, fun hall => hall v hmem⟩

/-- Witness for fraud_victim_constraints: a registry holding one genuine
active agent that matches both constraint sets. -/
theorem fraud_victim_constraints_witness :
    (⟨0, 7, 1, 2, 1, false⟩ : Agent) ∈ [(⟨0, 7, 1, 2, 1, false⟩ : Agent)] ∧
    ([1] : List ℕ).contains (⟨0, 7, 1, 2, 1, false⟩ : Agent).country = true ∧
    ([2] : List ℕ).contains (⟨0, 7, 1, 2, 1, false⟩ : Agent).currency = true ∧
    (customers_active_ids [⟨0, 7, 1, 2, 1, false⟩]).contains
      (⟨0, 7, 1, 2, 1, false⟩ : Agent).unique_id = true ∧
    ((∀ c ∈ [(⟨0, 7, 1, 2, 1, false⟩ : Agent)], c.fraudster = false) →
      (⟨0, 7, 1, 2, 1, false⟩ : Agent).fraudster = false) :=
  fraud_victim_constraints [⟨0, 7, 1, 2, 1, false⟩] [1] [2] 0 ⟨0, 7, 1, 2, 1, false⟩
    (by decide)

/-- C7: pick_curr_merchant resolves exactly the sampled merchant id — a
returned merchant carries the sampled id; when no registry merchant has the
sampled id the lookup error surfaces as a failed call; and over a distribution
giving a single merchant probability 1 that merchant is returned for every
draw in [0, 1). -/
theorem pick_curr_merchant_spec :
    (∀ (mp : List (ℕ × ℚ)) (ms : List Merchant) (u : ℚ) (m : Merchant),
      pick_curr_merchant mp ms u = some m →
      weighted_choice mp u = some m.unique_id) ∧
    (∀ (mp : List (ℕ × ℚ)) (ms : List Merchant) (u : ℚ) (mID : ℕ),
      weighted_choice mp u = some mID →
      (∀ m ∈ ms, m.unique_id ≠ mID) →
      pick_curr_merchant mp ms u = none) ∧
    (∀ (mID : ℕ) (ms : List Merchant) (u : ℚ) (m : Merchant),
      0 ≤ u → u < 1 →
      ms.filter (fun x => x.unique_id == mID) = [m] →
      pick_curr_merchant [(mID, 1)] ms u = some m) := by
  refine ⟨?_, ?_, ?_⟩
  · intro mp ms u m h
    unfold pick_curr_merchant at h
    cases hw : weighted_choice mp u with
    | none => rw [hw] at h; simp at h
    | some mid =>
      rw [hw] at h
      have h' : (ms.filter fun x => x.unique_id == mid).head? = some m := h
      cases hf : ms.filter fun x => x.unique_id == mid with
      | nil => rw [hf] at h'; simp at h'
      | cons y ys =>
        rw [hf] at h'
        simp only [List.head?_cons, Option.some.injEq] at h'
        have hy : y ∈ ms.filter fun x => x.unique_id == mid := by
          rw [hf]
          exact List.mem_cons_self y ys
        rw [List.mem_filter] at hy
        have hid : y.unique_id = mid := by
          have h2 := hy.2
          simp only [beq_iff_eq] at h2
          exact h2
        rw [← h', hid]
  · intro mp ms u mID hw hnone
    unfold pick_curr_merchant
    rw [hw]
    show (ms.filter fun x => x.unique_id == mID).head? = none
    have hf : ms.filter (fun x => x.unique_id == mID) = [] := by
      rw [List.filter_eq_nil_iff]
      intro a ha
      simp only [beq_iff_eq]
      exact hnone a ha
    rw [hf]
    rfl
  · intro mID ms u m hu0 hu1 hf
    have hwc : weighted_choice [(mID, 1)] u = some mID := by
      unfold weighted_choice
      exact if_pos hu1
    unfold pick_curr_merchant
    rw [hwc]
    show (ms.filter fun x => x.unique_id == mID).head? = some m
    rw [hf]
    rfl

/-- Witness for pick_curr_merchant_spec: merchant 3 with probability 1 and a
registry holding exactly that merchant. -/
theorem pick_curr_merchant_spec_witness :
    pick_curr_merchant [(3, 1)] [⟨3⟩] 0 = some ⟨3⟩ :=
  pick_curr_merchant_spec.2.2 3 [⟨3⟩] 0 ⟨3⟩ le_rfl (by norm_num) rfl

/-- C10: when perform_transaction succeeds it only updates curr_merchant and
curr_amount; num_transactions, stay, card_corrupted, card_id, country and
currency are unchanged, so the transaction counter is not incremented here. -/
theorem perform_transaction_frame :
    ∀ (ga : Merchant → CustomerFields → ℚ) (mp : List (ℕ × ℚ))
      (ms : List Merchant) (u : ℚ) (s s' : CustomerFields),
      perform_transaction ga mp ms u s = some s' →
      s'.num_transactions = s.num_transactions ∧ s'.stay = s.stay ∧
        s'.card_corrupted = s.card_corrupted ∧ s'.card_id = s.card_id ∧
        s'.country = s.country ∧ s'.currency = s.currency := by
  intro ga mp ms u s s' h
  unfold perform_transaction at h
  cases hm : pick_curr_merchant mp ms u with
  | none => rw [hm] at h; simp at h
  | some m =>
    rw [hm] at h
    have h2 :
        some
            { s with
              curr_merchant := some m,
              curr_amount := ga m { s with curr_merchant := some m } } =
          some s' := h
    simp only [Option.some.injEq] at h2
    subst h2
    exact ⟨rfl, rfl, rfl, rfl, rfl, rfl⟩

/-- Witness for perform_transaction_frame: a concrete successful transaction
against merchant 3 with amount 5. -/
theorem perform_transaction_frame_witness :
    (⟨0, true, false, 4, 1, 2, some ⟨3⟩, 5⟩ : CustomerFields).num_transactions =
        (⟨0, true, false, 4, 1, 2, none, 0⟩ : CustomerFields).num_transactions ∧
      (⟨0, true, false, 4, 1, 2, some ⟨3⟩, 5⟩ : CustomerFields).stay =
        (⟨0, true, false, 4, 1, 2, none, 0⟩ : CustomerFields).stay ∧
      (⟨0, true, false, 4, 1, 2, some ⟨3⟩, 5⟩ : CustomerFields).card_corrupted =
        (⟨0, true, false, 4, 1, 2, none, 0⟩ : CustomerFields).card_corrupted ∧
      (⟨0, true, false, 4, 1, 2, some ⟨3⟩, 5⟩ : CustomerFields).card_id =
        (⟨0, true, false, 4, 1, 2, none, 0⟩ : CustomerFields).card_id ∧
      (⟨0, true, false, 4, 1, 2, some ⟨3⟩, 5⟩ : CustomerFields).country =
        (⟨0, true, false, 4, 1, 2, none, 0⟩ : CustomerFields).country ∧
      (⟨0, true, false, 4, 1, 2, some ⟨3⟩, 5⟩ : CustomerFields).currency =
        (⟨0, true, false, 4, 1, 2, none, 0⟩ : CustomerFields).currency :=
  perform_transaction_frame (fun _ _ => 5) [(3, 1)] [⟨3⟩] 0
    ⟨0, true, false, 4, 1, 2, none, 0⟩ ⟨0, true, false, 4, 1, 2, some ⟨3⟩, 5⟩
    (by decide)

end MultiMAuS
